import Mathlib

/-!
Verification of the macOS native launchers of the RedHoleEngine repository
(`src/RedHoleEngine/Launcher/macos_launcher.c` and
`src/RedHoleGame/Launcher/macos_launcher.c`).

Shallow-embedding conventions:

* C strings are Lean `String`s.  `snprintf` into a buffer of `cap` bytes
  writes at most `cap - 1` characters and NUL-terminates, which we model as
  truncation to the first `cap - 1` characters (`sTrunc`), and so does
  `strncpy(dst, src, cap - 1)` followed by `dst[cap - 1] = 0`.
* The process environment is a map `String → Option String`; `setenv` with
  overwrite flag `1` is a pointwise update.
* The filesystem is a predicate `String → Bool` giving the result of
  `access(path, F_OK) == 0` (the `file_exists` helper of the C sources).
* The results of `_NSGetExecutablePath` and `realpath` are inputs of the
  model (`none` = failure).  `realpath(3)` fails with `ENAMETOOLONG`
  instead of producing a path of `PATH_MAX = 1024` bytes or more, so
  theorems about successful runs may assume the resolved path has length
  at most `1023`.
* On macOS, `dirname(3)` and `basename(3)` (from `libgen.h`) return
  internal storage and leave their argument untouched; we model them as
  pure functions with POSIX semantics.
* `execvp` on success replaces the process image (the `exec` result below,
  carrying the argument vector and the mutated environment); on failure it
  returns to the caller, which the input flag `execvpFails` selects.
-/

/-- Constant from `#define MAX_PATH 4096` in both launcher sources. -/
def MAX_PATH : Nat := 4096

/-- Process environment: variable name to value (`none` = unset). -/
abbrev Env := String → Option String

/-- Filesystem state: `fs p` is the result of `access(p, F_OK) == 0`. -/
abbrev FS := String → Bool

/-- Truncating write of string `s` into a `cap`-byte C buffer
(`snprintf(buf, cap, …)`, or `strncpy(buf, s, cap - 1)` plus a forced NUL):
at most `cap - 1` characters are kept. -/
def sTrunc (cap : Nat) (s : String) : String := String.mk (s.data.take (cap - 1))

/-- Model of `setenv(k, v, 1)`: overwrite the binding of `k` with `v`. -/
def setenv (env : Env) (k v : String) : Env :=
  fun k' => if k' = k then some v else env k'

/-- Strip trailing `'/'` characters (helper for POSIX `dirname`/`basename`). -/
def dropTrailingSlashes (l : List Char) : List Char :=
  (l.reverse.dropWhile (fun c => c == '/')).reverse

/-- POSIX `basename(3)` as implemented by macOS libgen: the final pathname
component, after stripping trailing slashes; `"/"` for all-slash paths and
`"."` for the empty path. -/
def basename (p : String) : String :=
  if (dropTrailingSlashes p.data).isEmpty then
    if p.data.any (fun c => c == '/') then "/" else "."
  else
    String.mk (((dropTrailingSlashes p.data).reverse.takeWhile (fun c => c != '/')).reverse)

/-- POSIX `dirname(3)` as implemented by macOS libgen: the path with its
final component removed. -/
def dirname (p : String) : String :=
  if (dropTrailingSlashes p.data).isEmpty then
    if p.data.any (fun c => c == '/') then "/" else "."
  else
    if (((dropTrailingSlashes p.data).reverse.dropWhile (fun c => c != '/')).dropWhile
        (fun c => c == '/')).isEmpty then
      if (dropTrailingSlashes p.data).head? = some '/' then "/" else "."
    else
      String.mk ((((dropTrailingSlashes p.data).reverse.dropWhile (fun c => c != '/')).dropWhile
        (fun c => c == '/')).reverse)

/-- Occurrence test underlying C `strstr`: does `needle` occur as a
contiguous run inside the haystack? -/
def strstrB (needle : List Char) : List Char → Bool
  | [] => needle.isPrefixOf []
  | c :: t => needle.isPrefixOf (c :: t) || strstrB needle t

/-- C `strstr(hay, needle) != NULL`. -/
def strstr (hay needle : String) : Bool := strstrB needle.data hay.data

/-- Constant `brew_icd = "/opt/homebrew/share/vulkan/icd.d/MoltenVK_icd.json"`. -/
def brew_icd : String := "/opt/homebrew/share/vulkan/icd.d/MoltenVK_icd.json"

/-- Constant `local_icd = "/usr/local/share/vulkan/icd.d/MoltenVK_icd.json"`. -/
def local_icd : String := "/usr/local/share/vulkan/icd.d/MoltenVK_icd.json"

/-- The probed Homebrew Vulkan loader library. -/
def brewVulkanLib : String := "/opt/homebrew/lib/libvulkan.dylib"

/-- The Homebrew library directory appended to the search path. -/
def brewLibDir : String := "/opt/homebrew/lib"

-- Derived path strings, exactly as both launcher sources compute them from
-- `real_path` (the `realpath` result).

/-- Directory `dir = dirname(real_path)`. -/
def dirOf (real_path : String) : String := dirname real_path

/-- Buffer copy `strncpy(exe_name, basename(real_path), MAX_PATH - 1)` plus forced NUL. -/
def exeNameOf (real_path : String) : String := sTrunc MAX_PATH (basename real_path)

/-- Buffer write `snprintf(dll_name, MAX_PATH, "%s.dll", exe_name)`. -/
def dllNameOf (real_path : String) : String :=
  sTrunc MAX_PATH (exeNameOf real_path ++ ".dll")

/-- Buffer write `snprintf(dll_path, MAX_PATH, "%s/%s", dir, dll_name)`. -/
def dllPathOf (real_path : String) : String :=
  sTrunc MAX_PATH (dirOf real_path ++ "/" ++ dllNameOf real_path)

/-- Buffer write `snprintf(icd_path, MAX_PATH, "%s/runtimes/osx/native/MoltenVK_icd.json", dir)`. -/
def icdPath0Of (real_path : String) : String :=
  sTrunc MAX_PATH (dirOf real_path ++ "/runtimes/osx/native/MoltenVK_icd.json")

/-- Buffer write `snprintf(dyld_path, MAX_PATH, "%s", dir)`. -/
def dyldPathOf (real_path : String) : String := sTrunc MAX_PATH (dirOf real_path)

/-- Buffer write `snprintf(native_path, MAX_PATH, "%s/runtimes/osx/native", dir)`. -/
def nativePathOf (real_path : String) : String :=
  sTrunc MAX_PATH (dirOf real_path ++ "/runtimes/osx/native")

/-- The `DYLD_LIBRARY_PATH` update (launcher sources: "Set environment
variables" block): prepend `dyld_path` and `native_path` to any pre-existing
non-empty value, through an 8192-byte `snprintf` buffer. -/
def setDyldStep (dyld_path native_path : String) (env : Env) : Env :=
  match env "DYLD_LIBRARY_PATH" with
  | some existing_dyld =>
      if existing_dyld.length > 0 then
        setenv env "DYLD_LIBRARY_PATH"
          (sTrunc (MAX_PATH * 2) (dyld_path ++ ":" ++ native_path ++ ":" ++ existing_dyld))
      else
        setenv env "DYLD_LIBRARY_PATH"
          (sTrunc (MAX_PATH * 2) (dyld_path ++ ":" ++ native_path))
  | none =>
      setenv env "DYLD_LIBRARY_PATH"
        (sTrunc (MAX_PATH * 2) (dyld_path ++ ":" ++ native_path))

/-- The "Add Homebrew Vulkan loader path if present" block: if
`/opt/homebrew/lib/libvulkan.dylib` exists and the current value does not
contain `/opt/homebrew/lib` as a substring, append it, again through an
8192-byte `snprintf` buffer. -/
def brewLibStep (fs : FS) (env : Env) : Env :=
  if fs brewVulkanLib then
    match env "DYLD_LIBRARY_PATH" with
    | some dyld =>
        if strstr dyld brewLibDir then env
        else
          setenv env "DYLD_LIBRARY_PATH"
            (sTrunc (MAX_PATH * 2) (dyld ++ ":" ++ brewLibDir))
    | none => env
  else env

/-- The "Set Vulkan ICD paths" cascade: keep the bundled `icd_path` if it
exists, otherwise take the first existing of the two fallback manifests
(each copied via `strncpy` into the `MAX_PATH` buffer), otherwise keep the
bundled path. -/
def selectIcdPath (fs : FS) (icd_path : String) : String :=
  if !(fs icd_path) then
    if fs brew_icd then sTrunc MAX_PATH brew_icd
    else if fs local_icd then sTrunc MAX_PATH local_icd
    else icd_path
  else icd_path

/-- The whole environment-configuration phase of both launchers (spec §4.2):
`DYLD_LIBRARY_PATH` update, Homebrew append, then both Vulkan manifest
variables set to the selected manifest path. -/
def configureEnv (fs : FS) (dyld_path native_path icd_path : String) (env : Env) : Env :=
  let env1 := setDyldStep dyld_path native_path env
  let env2 := brewLibStep fs env1
  let icd := selectIcdPath fs icd_path
  setenv (setenv env2 "VK_ICD_FILENAMES" icd) "VK_DRIVER_FILES" icd

/-- Inputs of one launcher run: forwarded arguments (`argv[1..]`), initial
environment, filesystem, the `_NSGetExecutablePath` result, the behaviour of
`realpath`, and whether `execvp` returns (fails). -/
structure LaunchInputs where
  args : List String
  env0 : Env
  fs : FS
  nsExecPath : Option String
  realpathOf : String → Option String
  execvpFails : Bool

/-- Observable outcome of a launcher run: either the process image is
replaced (`exec file argv env`, where `argv` lists the `char *` entries with
`none` for the terminating NULL), or the launcher prints `msg` to stderr and
returns `code`. -/
inductive LaunchResult where
  | exec (file : String) (argv : List (Option String)) (env : Env)
  | fail (msg : String) (code : Nat)

/-- Message `"Error: Could not get executable path\n"` printed to stderr. -/
def msgNoExePath : String := "Error: Could not get executable path\n"

/-- Message `"Error: Could not resolve path\n"` printed to stderr. -/
def msgNoResolve : String := "Error: Could not resolve path\n"

/-- Message `"Error: Could not execute dotnet\n"` printed to stderr. -/
def msgNoExec : String := "Error: Could not execute dotnet\n"

namespace RedHoleEngine

/-- Function `main` of `src/RedHoleEngine/Launcher/macos_launcher.c`. -/
def main (inp : LaunchInputs) : LaunchResult :=
  match inp.nsExecPath with
  | none => .fail msgNoExePath 1
  | some exe_path =>
    match inp.realpathOf exe_path with
    | none => .fail msgNoResolve 1
    | some real_path =>
      let dll_path := dllPathOf real_path
      let icd_path := icdPath0Of real_path
      let dyld_path := dyldPathOf real_path
      let native_path := nativePathOf real_path
      let env := configureEnv inp.fs dyld_path native_path icd_path inp.env0
      let new_argv : List (Option String) :=
        some "dotnet" :: some dll_path :: (inp.args.map some ++ [none])
      if inp.execvpFails then .fail msgNoExec 1
      else .exec "dotnet" new_argv env

end RedHoleEngine

namespace RedHoleGame

/-- Function `main` of `src/RedHoleGame/Launcher/macos_launcher.c`. -/
def main (inp : LaunchInputs) : LaunchResult :=
  match inp.nsExecPath with
  | none => .fail msgNoExePath 1
  | some exe_path =>
    match inp.realpathOf exe_path with
    | none => .fail msgNoResolve 1
    | some real_path =>
      let dll_path := dllPathOf real_path
      let icd_path := icdPath0Of real_path
      let dyld_path := dyldPathOf real_path
      let native_path := nativePathOf real_path
      let env := configureEnv inp.fs dyld_path native_path icd_path inp.env0
      let new_argv : List (Option String) :=
        some "dotnet" :: some dll_path :: (inp.args.map some ++ [none])
      if inp.execvpFails then .fail msgNoExec 1
      else .exec "dotnet" new_argv env

end RedHoleGame

-- Concrete inputs used by witnesses and counterexamples.

/-- A sample run: launcher resolved at `/Apps/Foo/Foo`, two forwarded
arguments, empty environment, empty filesystem, `execvp` succeeds. -/
def sampleInp : LaunchInputs where
  args := ["a", "b"]
  env0 := fun _ => none
  fs := fun _ => false
  nsExecPath := some "/Apps/Foo/Foo"
  realpathOf := fun q => if q = "/Apps/Foo/Foo" then some "/Apps/Foo/Foo" else none
  execvpFails := false

/-- Filesystem in which exactly the Homebrew Vulkan library exists. -/
def fsBrewOnly : FS := fun p => p == brewVulkanLib

/-- Environment whose library search path is a short two-directory value. -/
def envShort : Env := fun k => if k = "DYLD_LIBRARY_PATH" then some "/x:/y" else none

/-- A 9000-character pre-existing environment value. -/
def longX : String := String.mk (List.replicate 9000 'x')

/-- Environment whose library search path already holds `longX`. -/
def envLong : Env := fun k => if k = "DYLD_LIBRARY_PATH" then some longX else none

/-- What the search-path update step produces from resolved path `/a/b` and
the pre-existing value `longX`: the first 8191 characters of the
9026-character concatenation. -/
def truncDyldVal : String :=
  sTrunc (MAX_PATH * 2) (dyldPathOf "/a/b" ++ ":" ++ nativePathOf "/a/b" ++ ":" ++ longX)

/-! ### Basic facts about the buffer and path helpers -/

theorem sTrunc_length_le (cap : Nat) (s : String) : (sTrunc cap s).length ≤ cap - 1 := by
  simp [sTrunc, List.length_take]

theorem sTrunc_eq_of_le {cap : Nat} {s : String} (h : s.length ≤ cap - 1) :
    sTrunc cap s = s := by
  cases s with
  | mk data =>
    simp only [String.length_mk] at h
    simp [sTrunc, List.take_of_length_le h]

theorem length_dropTrailingSlashes_le (l : List Char) :
    (dropTrailingSlashes l).length ≤ l.length := by
  have h := (List.dropWhile_sublist (l := l.reverse) (fun c => c == '/')).length_le
  simpa [dropTrailingSlashes] using h

theorem length_slash : ("/" : String).length = 1 := by decide

theorem length_dot : ("." : String).length = 1 := by decide

theorem basename_length_le (p : String) (n : Nat) (h1 : p.length ≤ n) (h2 : 1 ≤ n) :
    (basename p).length ≤ n := by
  have hd := length_dropTrailingSlashes_le p.data
  have hp : p.data.length ≤ n := h1
  unfold basename
  split
  · split
    · rw [length_slash]; omega
    · rw [length_dot]; omega
  · have hs := (List.takeWhile_sublist
        (l := (dropTrailingSlashes p.data).reverse) (fun c => c != '/')).length_le
    simp at hs ⊢
    omega

theorem dirname_length_le (p : String) (n : Nat) (h1 : p.length ≤ n) (h2 : 1 ≤ n) :
    (dirname p).length ≤ n := by
  have hd := length_dropTrailingSlashes_le p.data
  have hp : p.data.length ≤ n := h1
  unfold dirname
  split
  · split
    · rw [length_slash]; omega
    · rw [length_dot]; omega
  · split
    · split
      · rw [length_slash]; omega
      · rw [length_dot]; omega
    · have hs := (List.dropWhile_sublist
          (l := ((dropTrailingSlashes p.data).reverse.dropWhile (fun c => c != '/')))
          (fun c => c == '/')).length_le
      have hs2 := (List.dropWhile_sublist
          (l := (dropTrailingSlashes p.data).reverse) (fun c => c != '/')).length_le
      simp at hs hs2 ⊢
      omega

theorem dyldPathOf_eq (rp : String) (h : rp.length ≤ 1023) :
    dyldPathOf rp = dirname rp := by
  have := dirname_length_le rp 1023 h (by omega)
  exact sTrunc_eq_of_le (by unfold dirOf MAX_PATH; omega)

theorem nativePathOf_eq (rp : String) (h : rp.length ≤ 1023) :
    nativePathOf rp = dirname rp ++ "/runtimes/osx/native" := by
  have hdir := dirname_length_le rp 1023 h (by omega)
  have hlit : ("/runtimes/osx/native" : String).length = 20 := by decide
  exact sTrunc_eq_of_le (by
    unfold dirOf
    rw [String.length_append, hlit]
    unfold MAX_PATH
    omega)

theorem icdPath0Of_eq (rp : String) (h : rp.length ≤ 1023) :
    icdPath0Of rp = dirname rp ++ "/runtimes/osx/native/MoltenVK_icd.json" := by
  have hdir := dirname_length_le rp 1023 h (by omega)
  have hlit : ("/runtimes/osx/native/MoltenVK_icd.json" : String).length = 38 := by decide
  exact sTrunc_eq_of_le (by
    unfold dirOf
    rw [String.length_append, hlit]
    unfold MAX_PATH
    omega)

theorem exeNameOf_eq (rp : String) (h : rp.length ≤ 1023) :
    exeNameOf rp = basename rp := by
  have := basename_length_le rp 1023 h (by omega)
  exact sTrunc_eq_of_le (by unfold MAX_PATH; omega)

theorem dllNameOf_eq (rp : String) (h : rp.length ≤ 1023) :
    dllNameOf rp = basename rp ++ ".dll" := by
  have hb := basename_length_le rp 1023 h (by omega)
  have hlit : (".dll" : String).length = 4 := by decide
  unfold dllNameOf
  rw [exeNameOf_eq rp h]
  exact sTrunc_eq_of_le (by
    rw [String.length_append, hlit]
    unfold MAX_PATH
    omega)

theorem dllPathOf_eq (rp : String) (h : rp.length ≤ 1023) :
    dllPathOf rp = dirname rp ++ "/" ++ (basename rp ++ ".dll") := by
  have hdir := dirname_length_le rp 1023 h (by omega)
  have hb := basename_length_le rp 1023 h (by omega)
  have hlit : ("/" : String).length = 1 := by decide
  have hlit2 : (".dll" : String).length = 4 := by decide
  unfold dllPathOf dirOf
  rw [dllNameOf_eq rp h]
  exact sTrunc_eq_of_le (by
    rw [String.length_append, String.length_append, String.length_append, hlit, hlit2]
    unfold MAX_PATH
    omega)

theorem setenv_self (env : Env) (k v : String) : setenv env k v k = some v := by
  simp [setenv]

theorem setenv_other (env : Env) (k v k' : String) (h : k' ≠ k) :
    setenv env k v k' = env k' := by
  simp [setenv, h]

/-- Theorem writing `RedHoleEngine.main` out once and for all as a case tree
(definitional unfolding). -/
theorem engineMain_eq (inp : LaunchInputs) :
    RedHoleEngine.main inp =
      match inp.nsExecPath with
      | none => LaunchResult.fail msgNoExePath 1
      | some exe_path =>
        match inp.realpathOf exe_path with
        | none => LaunchResult.fail msgNoResolve 1
        | some real_path =>
          if inp.execvpFails then LaunchResult.fail msgNoExec 1
          else
            LaunchResult.exec "dotnet"
              (some "dotnet" :: some (dllPathOf real_path) :: (inp.args.map some ++ [none]))
              (configureEnv inp.fs (dyldPathOf real_path) (nativePathOf real_path)
                (icdPath0Of real_path) inp.env0) := rfl

/-! ### The claims -/

/-- C4: for every executable whose symlink-resolved path `rp` has containing
directory `D` (`dirname`) and base name `N` (`basename`), the computed
managed-module path is exactly `D/N.dll`.  The path is computed from the
resolved path alone, so it does not depend on how the program was invoked
(direct call, symlink, relative path).  `realpath(3)` fails with
`ENAMETOOLONG` instead of returning a path of `PATH_MAX = 1024` bytes or
more, which justifies the length hypothesis on `rp`. -/
theorem C4_module_path (rp D N : String) (hrp : rp.length ≤ 1023)
    (hD : dirname rp = D) (hN : basename rp = N) :
    dllPathOf rp = D ++ "/" ++ N ++ ".dll" := by
  rw [dllPathOf_eq rp hrp, hD, hN, ← String.append_assoc]

/-- Witness for C4 at the executable path `/Apps/Foo/Foo`. -/
theorem C4_module_path_witness :
    dllPathOf "/Apps/Foo/Foo" = "/Apps/Foo" ++ "/" ++ "Foo" ++ ".dll" :=
  C4_module_path "/Apps/Foo/Foo" "/Apps/Foo" "Foo" (by decide) (by decide) (by decide)

/-- C3: for every original argument list (`argv[1..]`), the argument vector
passed to `execvp` is exactly `["dotnet", module path, args...]` followed by
the NULL terminator — `n + 2` entries plus the terminator, arguments kept in
original order and content. -/
theorem C3_argv (inp : LaunchInputs) (e rp : String)
    (h1 : inp.nsExecPath = some e) (h2 : inp.realpathOf e = some rp)
    (h3 : inp.execvpFails = false) :
    ∃ env,
      RedHoleEngine.main inp =
        LaunchResult.exec "dotnet"
          (some "dotnet" :: some (dllPathOf rp) :: (inp.args.map some ++ [none])) env
      ∧ (some "dotnet" :: some (dllPathOf rp) :: (inp.args.map some ++ [none])).length
          = (inp.args.length + 2) + 1 := by
  refine ⟨configureEnv inp.fs (dyldPathOf rp) (nativePathOf rp) (icdPath0Of rp) inp.env0,
    ?_, ?_⟩
  · simp [engineMain_eq, h1, h2, h3]
  · simp

/-- Witness for C3: arguments `["a", "b"]` become
`[dotnet, module, "a", "b", NULL]`. -/
theorem C3_argv_witness :
    ∃ env,
      RedHoleEngine.main sampleInp =
        LaunchResult.exec "dotnet"
          (some "dotnet" :: some (dllPathOf "/Apps/Foo/Foo")
            :: (sampleInp.args.map some ++ [none])) env
      ∧ (some "dotnet" :: some (dllPathOf "/Apps/Foo/Foo")
            :: (sampleInp.args.map some ++ [none])).length
          = (sampleInp.args.length + 2) + 1 :=
  C3_argv sampleInp "/Apps/Foo/Foo" "/Apps/Foo/Foo" rfl (by decide) rfl

/-- C7: the two launcher variants (RedHoleEngine and RedHoleGame) produce
identical observable behaviour on every input — same derived paths, same
environment mutations, same argument vector, same failure messages and exit
statuses.  (The two C sources are token-identical apart from comments, and
so are their embeddings.) -/
theorem C7_variants_identical :
    ∀ inp : LaunchInputs, RedHoleEngine.main inp = RedHoleGame.main inp :=
  fun _ => rfl

/-- C6: exactly three failure conditions exist — no executable path, no
symlink resolution, failed `execvp` — each reported with its stderr message
and exit status 1; any run that is not one of these three failures replaces
the process image (in the `execvp` case the call first returns, and the
caller then reports and exits). -/
theorem C6_failure_modes (inp : LaunchInputs) :
    (∀ msg code, RedHoleEngine.main inp = LaunchResult.fail msg code →
        code = 1 ∧ (msg = msgNoExePath ∨ msg = msgNoResolve ∨ msg = msgNoExec))
    ∧ (inp.nsExecPath = none → RedHoleEngine.main inp = LaunchResult.fail msgNoExePath 1)
    ∧ (∀ e, inp.nsExecPath = some e → inp.realpathOf e = none →
        RedHoleEngine.main inp = LaunchResult.fail msgNoResolve 1)
    ∧ (∀ e rp, inp.nsExecPath = some e → inp.realpathOf e = some rp →
        inp.execvpFails = true → RedHoleEngine.main inp = LaunchResult.fail msgNoExec 1)
    ∧ (∀ e rp, inp.nsExecPath = some e → inp.realpathOf e = some rp →
        inp.execvpFails = false →
        ∃ argv env, RedHoleEngine.main inp = LaunchResult.exec "dotnet" argv env) := by
  refine ⟨?_, ?_, ?_, ?_, ?_⟩
  · intro msg code h
    rw [engineMain_eq] at h
    split at h
    · cases h
      exact ⟨rfl, Or.inl rfl⟩
    · split at h
      · cases h
        exact ⟨rfl, Or.inr (Or.inl rfl)⟩
      · split at h
        · cases h
          exact ⟨rfl, Or.inr (Or.inr rfl)⟩
        · cases h
  · intro h
    simp [engineMain_eq, h]
  · intro e h1 h2
    simp [engineMain_eq, h1, h2]
  · intro e rp h1 h2 h3
    simp [engineMain_eq, h1, h2, h3]
  · intro e rp h1 h2 h3
    exact ⟨some "dotnet" :: some (dllPathOf rp) :: (inp.args.map some ++ [none]),
      configureEnv inp.fs (dyldPathOf rp) (nativePathOf rp) (icdPath0Of rp) inp.env0,
      by simp [engineMain_eq, h1, h2, h3]⟩

/-- Witness for C6: the sample run with `_NSGetExecutablePath` failing exits
with the first error message and status 1. -/
theorem C6_failure_modes_witness :
    RedHoleEngine.main
      { args := [], env0 := fun _ => none, fs := fun _ => false,
        nsExecPath := none, realpathOf := fun _ => none, execvpFails := false }
      = LaunchResult.fail msgNoExePath 1 :=
  (C6_failure_modes
    { args := [], env0 := fun _ => none, fs := fun _ => false,
      nsExecPath := none, realpathOf := fun _ => none, execvpFails := false }).2.1 rfl

theorem setDyldStep_other (dp np : String) (env : Env) (k : String)
    (h : k ≠ "DYLD_LIBRARY_PATH") : setDyldStep dp np env k = env k := by
  unfold setDyldStep
  cases hE : env "DYLD_LIBRARY_PATH" with
  | none => simp [setenv, h]
  | some v =>
    dsimp only
    split <;> simp [setenv, h]

theorem brewLibStep_other (fs : FS) (env : Env) (k : String)
    (h : k ≠ "DYLD_LIBRARY_PATH") : brewLibStep fs env k = env k := by
  unfold brewLibStep
  split
  · cases hE : env "DYLD_LIBRARY_PATH" with
    | none => rfl
    | some v =>
      dsimp only
      split
      · rfl
      · simp [setenv, h]
  · rfl

theorem configureEnv_other (fs : FS) (dp np ip : String) (env : Env) (k : String)
    (h1 : k ≠ "DYLD_LIBRARY_PATH") (h2 : k ≠ "VK_ICD_FILENAMES")
    (h3 : k ≠ "VK_DRIVER_FILES") :
    configureEnv fs dp np ip env k = env k := by
  simp only [configureEnv]
  rw [setenv_other _ _ _ _ h3, setenv_other _ _ _ _ h2,
    brewLibStep_other _ _ _ h1, setDyldStep_other _ _ _ _ h1]

theorem configureEnv_vk (fs : FS) (dp np ip : String) (env : Env) :
    configureEnv fs dp np ip env "VK_ICD_FILENAMES" = some (selectIcdPath fs ip)
    ∧ configureEnv fs dp np ip env "VK_DRIVER_FILES" = some (selectIcdPath fs ip) := by
  simp only [configureEnv]
  constructor
  · rw [setenv_other _ _ _ _ (by decide)]
    exact setenv_self _ _ _
  · exact setenv_self _ _ _

/-- The ICD cascade of the code agrees with the cascade as the claim states
it (bundled first, then the Homebrew manifest, then the `/usr/local` one,
else the — possibly non-existent — bundled path). -/
theorem selectIcdPath_spec (fs : FS) (rp : String) (hrp : rp.length ≤ 1023) :
    selectIcdPath fs (icdPath0Of rp)
      = (if fs (dirname rp ++ "/runtimes/osx/native/MoltenVK_icd.json")
          then dirname rp ++ "/runtimes/osx/native/MoltenVK_icd.json"
          else if fs brew_icd then brew_icd
          else if fs local_icd then local_icd
          else dirname rp ++ "/runtimes/osx/native/MoltenVK_icd.json") := by
  rw [icdPath0Of_eq rp hrp]
  unfold selectIcdPath
  have hb : sTrunc MAX_PATH brew_icd = brew_icd := sTrunc_eq_of_le (by decide)
  have hl : sTrunc MAX_PATH local_icd = local_icd := sTrunc_eq_of_le (by decide)
  rw [hb, hl]
  cases hfs : fs (dirname rp ++ "/runtimes/osx/native/MoltenVK_icd.json") <;> simp [hfs]

/-- C8: every environment variable other than `DYLD_LIBRARY_PATH`,
`VK_ICD_FILENAMES` and `VK_DRIVER_FILES` is left unchanged and is inherited
verbatim by the replacement process image. -/
theorem C8_env_frame (inp : LaunchInputs) (file : String) (argv : List (Option String))
    (env : Env) (hrun : RedHoleEngine.main inp = LaunchResult.exec file argv env)
    (k : String) (h1 : k ≠ "DYLD_LIBRARY_PATH") (h2 : k ≠ "VK_ICD_FILENAMES")
    (h3 : k ≠ "VK_DRIVER_FILES") :
    env k = inp.env0 k := by
  rw [engineMain_eq] at hrun
  split at hrun
  · cases hrun
  · split at hrun
    · cases hrun
    · split at hrun
      · cases hrun
      · cases hrun
        exact configureEnv_other _ _ _ _ _ _ h1 h2 h3

/-- Witness for C8: `HOME` survives the sample run unchanged. -/
theorem C8_env_frame_witness :
    (configureEnv sampleInp.fs (dyldPathOf "/Apps/Foo/Foo") (nativePathOf "/Apps/Foo/Foo")
      (icdPath0Of "/Apps/Foo/Foo") sampleInp.env0) "HOME" = sampleInp.env0 "HOME" :=
  C8_env_frame sampleInp "dotnet"
    (some "dotnet" :: some (dllPathOf "/Apps/Foo/Foo") :: (sampleInp.args.map some ++ [none]))
    _ rfl "HOME" (by decide) (by decide) (by decide)

/-- C9: `VK_ICD_FILENAMES` and `VK_DRIVER_FILES` are unconditionally
overwritten with the selected manifest path — the value in the replacement
image is `selectIcdPath` of the filesystem and the bundled path, whatever
the two variables held in `env0` beforehand, so a user-configured manifest
setting never survives.  (`DYLD_LIBRARY_PATH`, by contrast, keeps its prior
value as a suffix — claim C1.) -/
theorem C9_vk_overwrite (inp : LaunchInputs) (e rp : String) (file : String)
    (argv : List (Option String)) (env : Env)
    (h1 : inp.nsExecPath = some e) (h2 : inp.realpathOf e = some rp)
    (hrun : RedHoleEngine.main inp = LaunchResult.exec file argv env) :
    env "VK_ICD_FILENAMES" = some (selectIcdPath inp.fs (icdPath0Of rp))
    ∧ env "VK_DRIVER_FILES" = some (selectIcdPath inp.fs (icdPath0Of rp)) := by
  simp only [engineMain_eq, h1, h2] at hrun
  split at hrun
  · cases hrun
  · cases hrun
    exact configureEnv_vk _ _ _ _ _

/-- Witness for C9 on the sample run. -/
theorem C9_vk_overwrite_witness :
    (configureEnv sampleInp.fs (dyldPathOf "/Apps/Foo/Foo") (nativePathOf "/Apps/Foo/Foo")
        (icdPath0Of "/Apps/Foo/Foo") sampleInp.env0) "VK_ICD_FILENAMES"
      = some (selectIcdPath sampleInp.fs (icdPath0Of "/Apps/Foo/Foo"))
    ∧ (configureEnv sampleInp.fs (dyldPathOf "/Apps/Foo/Foo") (nativePathOf "/Apps/Foo/Foo")
        (icdPath0Of "/Apps/Foo/Foo") sampleInp.env0) "VK_DRIVER_FILES"
      = some (selectIcdPath sampleInp.fs (icdPath0Of "/Apps/Foo/Foo")) :=
  C9_vk_overwrite sampleInp "/Apps/Foo/Foo" "/Apps/Foo/Foo" "dotnet"
    (some "dotnet" :: some (dllPathOf "/Apps/Foo/Foo") :: (sampleInp.args.map some ++ [none]))
    _ rfl (by decide) rfl

/-- C2: for every filesystem state, the manifest path written to both
`VK_ICD_FILENAMES` and `VK_DRIVER_FILES` is chosen by the cascade bundled →
Homebrew manifest → `/usr/local` manifest → (non-existent) bundled path;
both variables receive the same value, and absence of all candidates is not
an error (the run still reaches `execvp`). -/
theorem C2_icd_cascade (inp : LaunchInputs) (e rp : String)
    (h1 : inp.nsExecPath = some e) (h2 : inp.realpathOf e = some rp)
    (hrp : rp.length ≤ 1023) (h3 : inp.execvpFails = false) :
    ∃ argv env,
      RedHoleEngine.main inp = LaunchResult.exec "dotnet" argv env
      ∧ env "VK_ICD_FILENAMES"
          = some (if inp.fs (dirname rp ++ "/runtimes/osx/native/MoltenVK_icd.json")
              then dirname rp ++ "/runtimes/osx/native/MoltenVK_icd.json"
              else if inp.fs brew_icd then brew_icd
              else if inp.fs local_icd then local_icd
              else dirname rp ++ "/runtimes/osx/native/MoltenVK_icd.json")
      ∧ env "VK_DRIVER_FILES" = env "VK_ICD_FILENAMES" := by
  refine ⟨some "dotnet" :: some (dllPathOf rp) :: (inp.args.map some ++ [none]),
    configureEnv inp.fs (dyldPathOf rp) (nativePathOf rp) (icdPath0Of rp) inp.env0,
    ?_, ?_, ?_⟩
  · simp [engineMain_eq, h1, h2, h3]
  · rw [(configureEnv_vk inp.fs (dyldPathOf rp) (nativePathOf rp) (icdPath0Of rp) inp.env0).1,
      selectIcdPath_spec inp.fs rp hrp]
  · rw [(configureEnv_vk inp.fs (dyldPathOf rp) (nativePathOf rp) (icdPath0Of rp) inp.env0).1,
      (configureEnv_vk inp.fs (dyldPathOf rp) (nativePathOf rp) (icdPath0Of rp) inp.env0).2]

/-- Witness for C2: the sample run, in which no candidate manifest exists,
still execs and uses the (non-existent) bundled path for both variables. -/
theorem C2_icd_cascade_witness :
    ∃ argv env,
      RedHoleEngine.main sampleInp = LaunchResult.exec "dotnet" argv env
      ∧ env "VK_ICD_FILENAMES"
          = some (if sampleInp.fs (dirname "/Apps/Foo/Foo" ++ "/runtimes/osx/native/MoltenVK_icd.json")
              then dirname "/Apps/Foo/Foo" ++ "/runtimes/osx/native/MoltenVK_icd.json"
              else if sampleInp.fs brew_icd then brew_icd
              else if sampleInp.fs local_icd then local_icd
              else dirname "/Apps/Foo/Foo" ++ "/runtimes/osx/native/MoltenVK_icd.json")
      ∧ env "VK_DRIVER_FILES" = env "VK_ICD_FILENAMES" :=
  C2_icd_cascade sampleInp "/Apps/Foo/Foo" "/Apps/Foo/Foo" rfl (by decide) (by decide) rfl

/-! ### `strstr` and the Homebrew append step -/

theorem strstrB_iff (needle hay : List Char) :
    strstrB needle hay = true ↔ needle <:+: hay := by
  induction hay with
  | nil => simp [strstrB]
  | cons c t ih => simp [strstrB, ih, List.infix_cons_iff]

theorem strstr_iff (hay needle : String) :
    strstr hay needle = true ↔ needle.data <:+: hay.data := strstrB_iff _ _

theorem strstr_append_self (d t : String) : strstr (d ++ t) t = true := by
  rw [strstr_iff, String.data_append]
  exact (List.suffix_append _ _).isInfix

theorem strstr_eq_false_of_not_mem {hay needle : String} {c : Char}
    (hc : c ∈ needle.data) (hh : c ∉ hay.data) : strstr hay needle = false := by
  cases h : strstr hay needle
  · rfl
  · exact absurd (((strstr_iff _ _).mp h).sublist.subset hc) hh

theorem string_length_data (s : String) : s.length = s.data.length := rfl

theorem sTrunc_length (cap : Nat) (s : String) :
    (sTrunc cap s).length = min (cap - 1) s.length := by
  cases s with
  | mk l => simp [sTrunc, List.length_take]

/-- Appending beyond a full buffer is a no-op: if `s` already has the
maximal length the buffer can hold, `snprintf`-style truncation of `s ++ t`
gives back `s`. -/
theorem sTrunc_append_full {cap : Nat} {s : String} (t : String)
    (h : s.length = cap - 1) : sTrunc cap (s ++ t) = s := by
  cases s with
  | mk ls =>
    cases t with
    | mk lt =>
      simp only [String.length_mk] at h
      show String.mk ((ls ++ lt).take (cap - 1)) = String.mk ls
      rw [List.take_append_of_le_length (by omega), List.take_of_length_le (by omega)]

/-- Same, with the append written left-associated as in the code. -/
theorem sTrunc_append_full2 {cap : Nat} {s : String} (t u : String)
    (h : s.length = cap - 1) : sTrunc cap (s ++ t ++ u) = s := by
  rw [String.append_assoc]
  exact sTrunc_append_full _ h

theorem setenv_overwrite (env : Env) (k v w : String) :
    setenv (setenv env k v) k w = setenv env k w := by
  funext k'
  by_cases h : k' = k <;> simp [setenv, h]

/-- The Homebrew append step is idempotent: one more run of the same logic
in the same invocation changes nothing. -/
theorem brewLibStep_idem (fs : FS) (env : Env) :
    brewLibStep fs (brewLibStep fs env) = brewLibStep fs env := by
  by_cases hb : fs brewVulkanLib = true
  · cases hE : env "DYLD_LIBRARY_PATH" with
    | none =>
      have h1 : brewLibStep fs env = env := by
        unfold brewLibStep
        simp [hb, hE]
      rw [h1, h1]
    | some d =>
      by_cases hs : strstr d brewLibDir = true
      · have h1 : brewLibStep fs env = env := by
          unfold brewLibStep
          simp [hb, hE, hs]
        rw [h1, h1]
      · have h1 : brewLibStep fs env
            = setenv env "DYLD_LIBRARY_PATH" (sTrunc (MAX_PATH * 2) (d ++ ":" ++ brewLibDir)) := by
          unfold brewLibStep
          simp [hb, hE, hs]
        rw [h1]
        have hE2 : setenv env "DYLD_LIBRARY_PATH" (sTrunc (MAX_PATH * 2) (d ++ ":" ++ brewLibDir))
            "DYLD_LIBRARY_PATH" = some (sTrunc (MAX_PATH * 2) (d ++ ":" ++ brewLibDir)) :=
          setenv_self _ _ _
        by_cases hs2 : strstr (sTrunc (MAX_PATH * 2) (d ++ ":" ++ brewLibDir)) brewLibDir = true
        · unfold brewLibStep
          simp [hb, hE2, hs2]
        · have hlong : ¬ (d ++ ":" ++ brewLibDir).length ≤ MAX_PATH * 2 - 1 := by
            intro hle
            rw [sTrunc_eq_of_le hle] at hs2
            exact hs2 (strstr_append_self (d ++ ":") brewLibDir)
          have hfull : (sTrunc (MAX_PATH * 2) (d ++ ":" ++ brewLibDir)).length
              = MAX_PATH * 2 - 1 := by
            rw [sTrunc_length]
            omega
          unfold brewLibStep
          rw [if_pos hb, hE2]
          dsimp only
          rw [if_neg hs2, sTrunc_append_full2 _ _ hfull, setenv_overwrite]
  · have h1 : brewLibStep fs env = env := by
      unfold brewLibStep
      simp [hb]
    rw [h1, h1]

/-- The append itself, when the result fits the 8192-byte buffer. -/
theorem brewLibStep_append (fs : FS) (env : Env) (d : String)
    (hb : fs brewVulkanLib = true) (hE : env "DYLD_LIBRARY_PATH" = some d)
    (hs : strstr d brewLibDir = false)
    (hfit : (d ++ ":" ++ brewLibDir).length ≤ MAX_PATH * 2 - 1) :
    brewLibStep fs env "DYLD_LIBRARY_PATH" = some (d ++ ":" ++ brewLibDir) := by
  unfold brewLibStep
  simp [hb, hE, hs, sTrunc_eq_of_le hfit, setenv_self]

/-- C5 (amended): if `/opt/homebrew/lib/libvulkan.dylib` exists and the
just-set search path does not yet mention `/opt/homebrew/lib`, then —
provided the appended result fits the 8192-byte buffer (length ≤ 8191) —
that directory is appended exactly once at the end; and in all cases the
step is idempotent, so running the configurator logic again within one
invocation never appends a second copy. -/
theorem C5_brew_append (fs : FS) (env : Env) :
    (∀ d, fs brewVulkanLib = true → env "DYLD_LIBRARY_PATH" = some d →
      strstr d brewLibDir = false →
      (d ++ ":" ++ brewLibDir).length ≤ MAX_PATH * 2 - 1 →
      brewLibStep fs env "DYLD_LIBRARY_PATH" = some (d ++ ":" ++ brewLibDir))
    ∧ brewLibStep fs (brewLibStep fs env) = brewLibStep fs env :=
  ⟨fun d hb hE hs hfit => brewLibStep_append fs env d hb hE hs hfit,
   brewLibStep_idem fs env⟩

/-- Witness for C5: with a short pre-existing path the directory is appended
once at the end and the step is idempotent. -/
theorem C5_brew_append_witness :
    brewLibStep fsBrewOnly envShort "DYLD_LIBRARY_PATH"
      = some ("/x:/y" ++ ":" ++ brewLibDir)
    ∧ brewLibStep fsBrewOnly (brewLibStep fsBrewOnly envShort)
      = brewLibStep fsBrewOnly envShort :=
  ⟨(C5_brew_append fsBrewOnly envShort).1 "/x:/y" (by decide) (by simp [envShort])
      (by decide) (by decide),
   (C5_brew_append fsBrewOnly envShort).2⟩

/-! ### Truncation: long pre-existing search-path values -/

theorem longX_length : longX.length = 9000 := by
  unfold longX
  rw [String.length_mk, List.length_replicate]

theorem envLong_dyld : envLong "DYLD_LIBRARY_PATH" = some longX := by
  simp [envLong]

theorem dyldPathOf_ab : dyldPathOf "/a/b" = "/a" := by decide

theorem nativePathOf_ab : nativePathOf "/a/b" = "/a/runtimes/osx/native" := by decide

theorem envAfterDyldStep_dyld :
    setDyldStep (dyldPathOf "/a/b") (nativePathOf "/a/b") envLong "DYLD_LIBRARY_PATH"
      = some truncDyldVal := by
  unfold setDyldStep
  rw [envLong_dyld]
  dsimp only
  rw [if_pos (by rw [longX_length]; omega)]
  exact setenv_self _ _ _

theorem truncDyldVal_length : truncDyldVal.length = MAX_PATH * 2 - 1 := by
  have l1 : ("/a" : String).length = 2 := by decide
  have l2 : (":" : String).length = 1 := by decide
  have l3 : ("/a/runtimes/osx/native" : String).length = 22 := by decide
  unfold truncDyldVal
  rw [sTrunc_length, dyldPathOf_ab, nativePathOf_ab,
    String.length_append, String.length_append, String.length_append, String.length_append,
    l1, l2, l3, longX_length]
  simp only [MAX_PATH]
  omega

theorem truncDyldVal_no_b : 'b' ∉ truncDyldVal.data := by
  intro hmem
  have hmem' : 'b' ∈ ((dyldPathOf "/a/b" ++ ":" ++ nativePathOf "/a/b" ++ ":" ++ longX).data.take
      (MAX_PATH * 2 - 1)) := hmem
  have h1 : 'b' ∈ (dyldPathOf "/a/b" ++ ":" ++ nativePathOf "/a/b" ++ ":" ++ longX).data :=
    List.take_subset _ _ hmem'
  rw [dyldPathOf_ab, nativePathOf_ab] at h1
  simp only [String.data_append, List.mem_append] at h1
  rcases h1 with (((h | h) | h) | h) | h
  · exact absurd h (by decide)
  · exact absurd h (by decide)
  · exact absurd h (by decide)
  · exact absurd h (by decide)
  · exact absurd (List.eq_of_mem_replicate h) (by decide)

/-- C5 counterexample: when the just-set search path is already 8191
characters long (a 9000-character value was present beforehand), the claim's
conditions hold — the Homebrew library exists and the path does not mention
`/opt/homebrew/lib` — yet the directory is not appended at the end: the
8192-byte `snprintf` buffer truncates the appended copy away entirely and
the value is unchanged. -/
theorem C5_brew_append_cex :
    fsBrewOnly brewVulkanLib = true
    ∧ setDyldStep (dyldPathOf "/a/b") (nativePathOf "/a/b") envLong "DYLD_LIBRARY_PATH"
        = some truncDyldVal
    ∧ strstr truncDyldVal brewLibDir = false
    ∧ brewLibStep fsBrewOnly
        (setDyldStep (dyldPathOf "/a/b") (nativePathOf "/a/b") envLong) "DYLD_LIBRARY_PATH"
      ≠ some (truncDyldVal ++ ":" ++ brewLibDir) := by
  have hstr : strstr truncDyldVal brewLibDir = false :=
    strstr_eq_false_of_not_mem (by decide) truncDyldVal_no_b
  refine ⟨by decide, envAfterDyldStep_dyld, hstr, ?_⟩
  have hs : ¬ strstr truncDyldVal brewLibDir = true := by
    rw [hstr]
    simp
  unfold brewLibStep
  rw [if_pos (show fsBrewOnly brewVulkanLib = true by decide), envAfterDyldStep_dyld]
  dsimp only
  rw [if_neg hs, setenv_self, sTrunc_append_full2 _ _ truncDyldVal_length]
  intro h
  have hlen := congrArg String.length (Option.some.inj h)
  rw [String.length_append, String.length_append] at hlen
  have hb17 : (brewLibDir : String).length = 17 := by decide
  have hc1 : (":" : String).length = 1 := by decide
  rw [hb17, hc1] at hlen
  omega

/-- C1 (amended): the library-search-path update step sets
`DYLD_LIBRARY_PATH` to exactly `D:D/runtimes/osx/native` when the variable
was unset or empty, and to exactly `D:D/runtimes/osx/native:V` when it held
a non-empty value `V` — provided the combined value fits the 8192-byte
`snprintf` buffer (length ≤ 8191); a longer combination is truncated to its
first 8191 characters (see the counterexample).  `D` is `dirname` of the
resolved executable path, whose length `realpath(3)` bounds by 1023. -/
theorem C1_dyld_value (rp : String) (env0 : Env) (hrp : rp.length ≤ 1023) :
    ((env0 "DYLD_LIBRARY_PATH" = none ∨ env0 "DYLD_LIBRARY_PATH" = some "") →
      setDyldStep (dyldPathOf rp) (nativePathOf rp) env0 "DYLD_LIBRARY_PATH"
        = some (dirname rp ++ ":" ++ (dirname rp ++ "/runtimes/osx/native")))
    ∧ (∀ V, env0 "DYLD_LIBRARY_PATH" = some V → 0 < V.length →
      (dirname rp ++ ":" ++ (dirname rp ++ "/runtimes/osx/native") ++ ":" ++ V).length
          ≤ MAX_PATH * 2 - 1 →
      setDyldStep (dyldPathOf rp) (nativePathOf rp) env0 "DYLD_LIBRARY_PATH"
        = some (dirname rp ++ ":" ++ (dirname rp ++ "/runtimes/osx/native") ++ ":" ++ V)) := by
  have hD := dirname_length_le rp 1023 hrp (by omega)
  have hnat : ("/runtimes/osx/native" : String).length = 20 := by decide
  have hcol : (":" : String).length = 1 := by decide
  have hfit0 : (dirname rp ++ ":" ++ (dirname rp ++ "/runtimes/osx/native")).length
      ≤ MAX_PATH * 2 - 1 := by
    rw [String.length_append, String.length_append, String.length_append, hcol, hnat]
    simp only [MAX_PATH]
    omega
  constructor
  · intro h
    unfold setDyldStep
    rcases h with h | h
    · rw [h]
      dsimp only
      rw [dyldPathOf_eq rp hrp, nativePathOf_eq rp hrp, sTrunc_eq_of_le hfit0]
      exact setenv_self _ _ _
    · rw [h]
      dsimp only
      rw [if_neg (by decide)]
      rw [dyldPathOf_eq rp hrp, nativePathOf_eq rp hrp, sTrunc_eq_of_le hfit0]
      exact setenv_self _ _ _
  · intro V hV hpos hfit
    unfold setDyldStep
    rw [hV]
    dsimp only
    rw [if_pos hpos, dyldPathOf_eq rp hrp, nativePathOf_eq rp hrp, sTrunc_eq_of_le hfit]
    exact setenv_self _ _ _

/-- Witness for C1: unset variable, resolved path `/Apps/Foo/Foo`. -/
theorem C1_dyld_value_witness :
    setDyldStep (dyldPathOf "/Apps/Foo/Foo") (nativePathOf "/Apps/Foo/Foo") (fun _ => none)
        "DYLD_LIBRARY_PATH"
      = some (dirname "/Apps/Foo/Foo" ++ ":"
          ++ (dirname "/Apps/Foo/Foo" ++ "/runtimes/osx/native")) :=
  (C1_dyld_value "/Apps/Foo/Foo" (fun _ => none) (by decide)).1 (Or.inl rfl)

/-- C1 counterexample: with directory `/a` and a pre-existing 9000-character
value, the resulting value is the 8191-character truncation, not the exact
concatenation the claim states — the pre-existing value is not preserved in
full. -/
theorem C1_dyld_value_cex :
    setDyldStep (dyldPathOf "/a/b") (nativePathOf "/a/b") envLong "DYLD_LIBRARY_PATH"
      ≠ some (dirname "/a/b" ++ ":" ++ (dirname "/a/b" ++ "/runtimes/osx/native")
          ++ ":" ++ longX) := by
  rw [envAfterDyldStep_dyld]
  intro h
  have hlen := congrArg String.length (Option.some.inj h)
  rw [truncDyldVal_length] at hlen
  have hda : dirname "/a/b" = "/a" := by decide
  rw [hda] at hlen
  simp only [String.length_append] at hlen
  have l1 : ("/a" : String).length = 2 := by decide
  have l2 : (":" : String).length = 1 := by decide
  have l3 : ("/runtimes/osx/native" : String).length = 20 := by decide
  rw [l1, l2, l3, longX_length] at hlen
  simp only [MAX_PATH] at hlen
  omega

/-! ### Bounded buffers -/

theorem setDyldStep_dyld_length (dp np : String) (env : Env) (v : String)
    (h : setDyldStep dp np env "DYLD_LIBRARY_PATH" = some v) :
    v.length ≤ MAX_PATH * 2 - 1 := by
  unfold setDyldStep at h
  cases hE : env "DYLD_LIBRARY_PATH" with
  | none =>
    rw [hE] at h
    dsimp only at h
    rw [setenv_self] at h
    have hv := (Option.some.inj h).symm
    rw [hv]
    exact sTrunc_length_le _ _
  | some w =>
    rw [hE] at h
    dsimp only at h
    by_cases hw : w.length > 0
    · rw [if_pos hw, setenv_self] at h
      have hv := (Option.some.inj h).symm
      rw [hv]
      exact sTrunc_length_le _ _
    · rw [if_neg hw, setenv_self] at h
      have hv := (Option.some.inj h).symm
      rw [hv]
      exact sTrunc_length_le _ _

theorem brewLibStep_dyld_length (fs : FS) (env : Env) (v : String)
    (h : brewLibStep fs env "DYLD_LIBRARY_PATH" = some v)
    (hprev : ∀ w, env "DYLD_LIBRARY_PATH" = some w → w.length ≤ MAX_PATH * 2 - 1) :
    v.length ≤ MAX_PATH * 2 - 1 := by
  unfold brewLibStep at h
  by_cases hb : fs brewVulkanLib = true
  · rw [if_pos hb] at h
    cases hE : env "DYLD_LIBRARY_PATH" with
    | none =>
      rw [hE] at h
      dsimp only at h
      rw [hE] at h
      cases h
    | some d =>
      rw [hE] at h
      dsimp only at h
      by_cases hs : strstr d brewLibDir = true
      · rw [if_pos hs, hE] at h
        have hv := (Option.some.inj h).symm
        rw [hv]
        exact hprev d hE
      · rw [if_neg hs, setenv_self] at h
        have hv := (Option.some.inj h).symm
        rw [hv]
        exact sTrunc_length_le _ _
  · rw [if_neg hb] at h
    exact hprev v h

theorem configureEnv_dyld_length (fs : FS) (dp np ip : String) (env : Env) (v : String)
    (h : configureEnv fs dp np ip env "DYLD_LIBRARY_PATH" = some v) :
    v.length ≤ MAX_PATH * 2 - 1 := by
  simp only [configureEnv] at h
  rw [setenv_other _ _ _ _ (by decide), setenv_other _ _ _ _ (by decide)] at h
  exact brewLibStep_dyld_length _ _ _ h
    (fun w hw => setDyldStep_dyld_length dp np env w hw)

/-- C10: every derived path string fits its `MAX_PATH` (4096-byte) buffer —
length at most 4095, the NUL fitting in the last byte — and the combined
search-path value always fits its 8192-byte buffer (length at most 8191);
a composed value whose length reaches the buffer size is silently truncated
to the first `size - 1` characters by the bounded `snprintf`, and the run
still proceeds to the process replacement instead of reporting an error. -/
theorem C10_bounded_buffers :
    (∀ rp : String,
      (exeNameOf rp).length ≤ MAX_PATH - 1
      ∧ (dllNameOf rp).length ≤ MAX_PATH - 1
      ∧ (dllPathOf rp).length ≤ MAX_PATH - 1
      ∧ (icdPath0Of rp).length ≤ MAX_PATH - 1
      ∧ (dyldPathOf rp).length ≤ MAX_PATH - 1
      ∧ (nativePathOf rp).length ≤ MAX_PATH - 1)
    ∧ (∀ (fs : FS) (dp np ip : String) (env : Env) (v : String),
        configureEnv fs dp np ip env "DYLD_LIBRARY_PATH" = some v →
        v.length ≤ MAX_PATH * 2 - 1)
    ∧ (∀ (dp np : String) (env : Env) (V : String),
        env "DYLD_LIBRARY_PATH" = some V → 0 < V.length →
        setDyldStep dp np env "DYLD_LIBRARY_PATH"
          = some (sTrunc (MAX_PATH * 2) (dp ++ ":" ++ np ++ ":" ++ V)))
    ∧ (∀ (inp : LaunchInputs) (e rp : String), inp.nsExecPath = some e →
        inp.realpathOf e = some rp → inp.execvpFails = false →
        ∃ argv env, RedHoleEngine.main inp = LaunchResult.exec "dotnet" argv env) := by
  refine ⟨?_, ?_, ?_, ?_⟩
  · intro rp
    exact ⟨sTrunc_length_le _ _, sTrunc_length_le _ _, sTrunc_length_le _ _,
      sTrunc_length_le _ _, sTrunc_length_le _ _, sTrunc_length_le _ _⟩
  · intro fs dp np ip env v h
    exact configureEnv_dyld_length fs dp np ip env v h
  · intro dp np env V hV hpos
    unfold setDyldStep
    rw [hV]
    dsimp only
    rw [if_pos hpos]
    exact setenv_self _ _ _
  · intro inp e rp h1 h2 h3
    exact ⟨some "dotnet" :: some (dllPathOf rp) :: (inp.args.map some ++ [none]),
      configureEnv inp.fs (dyldPathOf rp) (nativePathOf rp) (icdPath0Of rp) inp.env0,
      by simp [engineMain_eq, h1, h2, h3]⟩

/-- Witness for C10: a 9026-character combination is silently truncated —
the value set is the 8191-character prefix kept by the 8192-byte buffer. -/
theorem C10_bounded_buffers_witness :
    setDyldStep (dyldPathOf "/a/b") (nativePathOf "/a/b") envLong "DYLD_LIBRARY_PATH"
      = some (sTrunc (MAX_PATH * 2)
          (dyldPathOf "/a/b" ++ ":" ++ nativePathOf "/a/b" ++ ":" ++ longX)) :=
  C10_bounded_buffers.2.2.1 (dyldPathOf "/a/b") (nativePathOf "/a/b") envLong longX
    envLong_dyld (by rw [longX_length]; omega)
